import Mathlib

/-!
# Verification of the rasterprynt protocol encoder

Shallow embedding of `rasterprynt.py`: the Brother raster-protocol encoder
(row compressor, row rasterizer, job framer, printer-profile resolver and the
model-detection error handling), with theorems checking the specification's
claims against it.

Bytes are modelled as `Nat` (values `< 256` where the source produces them
from `bytes` objects); `struct.pack` range checks are modelled explicitly
(`Option`), since Python raises `struct.error` out of range.
-/

namespace Rasterprynt

/-! ## Row compressor (`_compress_tiff`) -/

/-- Model of `struct.pack('!b', v)`: the two's-complement byte of a signed value,
`none` (a raised `struct.error`) outside `[-128, 127]`. -/
def packSigned (v : Int) : Option Nat :=
  if -128 ≤ v ∧ v ≤ 127 then some ((v % 256).toNat) else none

/-- Model of `struct.pack('!bB', v, a)`: a signed byte followed by an unsigned byte;
`none` models the `struct.error` raised out of range. -/
def packSignedUnsigned (v : Int) (a : Nat) : Option (List Nat) :=
  if -128 ≤ v ∧ v ≤ 127 ∧ a ≤ 255 then some [(v % 256).toNat, a] else none

/-- The literal-span chunk flushed by `_compress_tiff`:
`struct.pack('!b', len(lit) - 1) + lit`. -/
def litChunk (lit : List Nat) : Option (List Nat) :=
  (packSigned ((lit.length : Int) - 1)).map (fun m => m :: lit)

/-- Number of equal consecutive pairs at the head of a list: the inner
`while` loop of `_compress_tiff` (`count`). -/
def runLen : List Nat → Nat
  | [] => 0
  | [_] => 0
  | a :: b :: rest => if b = a then runLen (b :: rest) + 1 else 0

/-- The flush `if uncompressed_start < pos: yield ... + row[...]`:
the flush of the pending literal span (no chunk when the span is empty). -/
def flushLit (lit : List Nat) : Option (List (List Nat)) :=
  match lit with
  | [] => some []
  | _ :: _ => (litChunk lit).map (fun ch => [ch])

/-- The scanning loop of `_compress_tiff`: `lit` is the pending uncompressed
span `row[uncompressed_start:pos]`, `l` the input from `pos` on.  Yields the
chunk list, or `none` when a `struct.pack` would raise. -/
def compressAux (lit : List Nat) (l : List Nat) : Option (List (List Nat)) :=
  match l with
  | [] => flushLit lit
  | a :: rest =>
    if 0 < runLen (a :: rest) then
      match flushLit lit, packSignedUnsigned (-(runLen (a :: rest) : Int)) a,
            compressAux [] (rest.drop (runLen (a :: rest))) with
      | some p, some r, some t => some (p ++ r :: t)
      | _, _, _ => none
    else
      compressAux (lit ++ [a]) rest
termination_by l.length
decreasing_by
  · simp [List.length_drop]; omega
  · simp

/-- Model of `_compress_tiff(row)`: Brother TIFF (PackBits-style) row compression,
as the list of yielded chunks. -/
def compress_tiff (row : List Nat) : Option (List (List Nat)) :=
  compressAux [] row

/-- The printer's PackBits decompressor, as described by the protocol: a
marker byte `m < 128` is followed by `m + 1` literal bytes; a marker
`m ≥ 128` (signed `m - 256`) is followed by one byte repeated
`1 - (m - 256) = 257 - m` times. -/
def decodePackBits : List Nat → List Nat
  | [] => []
  | m :: rest =>
    if m < 128 then
      rest.take (m + 1) ++ decodePackBits (rest.drop (m + 1))
    else
      match rest with
      | [] => []
      | b :: rest2 => List.replicate (257 - m) b ++ decodePackBits rest2
termination_by l => l.length
decreasing_by
  · simp [List.length_drop]; omega
  · simp; omega

/-! ### Round-trip of the row compressor -/

theorem runLen_le (a : Nat) (rest : List Nat) : runLen (a :: rest) ≤ rest.length := by
  induction rest generalizing a with
  | nil => simp [runLen]
  | cons b t ih =>
    rw [runLen]
    split
    · have := ih b
      simp
      omega
    · simp

theorem take_runLen (a : Nat) (rest : List Nat) :
    (a :: rest).take (runLen (a :: rest) + 1) =
      List.replicate (runLen (a :: rest) + 1) a := by
  induction rest generalizing a with
  | nil => simp [runLen]
  | cons b t ih =>
    rw [runLen]
    split
    · rename_i hba
      subst hba
      rw [List.take_succ_cons, ih b]
      simp [List.replicate_succ]
    · simp

theorem packSigned_nonneg (v : Int) (h0 : 0 ≤ v) (h1 : v ≤ 127) :
    packSigned v = some v.toNat := by
  unfold packSigned
  rw [if_pos ⟨by omega, h1⟩]
  congr 1
  rw [Int.emod_eq_of_lt h0 (by omega)]

theorem litChunk_eq (lit : List Nat) (h1 : 1 ≤ lit.length) (h2 : lit.length ≤ 128) :
    litChunk lit = some ((lit.length - 1) :: lit) := by
  unfold litChunk
  rw [packSigned_nonneg ((lit.length : Int) - 1) (by omega) (by omega)]
  simp

theorem compressAux_nil (lit : List Nat) : compressAux lit [] = flushLit lit := by
  rw [compressAux.eq_def]

theorem compressAux_cons (lit : List Nat) (a : Nat) (rest : List Nat) :
    compressAux lit (a :: rest) =
      if 0 < runLen (a :: rest) then
        match flushLit lit, packSignedUnsigned (-(runLen (a :: rest) : Int)) a,
              compressAux [] (rest.drop (runLen (a :: rest))) with
        | some p, some r, some t => some (p ++ r :: t)
        | _, _, _ => none
      else
        compressAux (lit ++ [a]) rest := by
  rw [compressAux.eq_def]

theorem decodePackBits_nil : decodePackBits [] = [] := by
  rw [decodePackBits.eq_def]

theorem decodePackBits_cons (m : Nat) (rest : List Nat) :
    decodePackBits (m :: rest) =
      if m < 128 then
        rest.take (m + 1) ++ decodePackBits (rest.drop (m + 1))
      else
        match rest with
        | [] => []
        | b :: rest2 => List.replicate (257 - m) b ++ decodePackBits rest2 := by
  rw [decodePackBits.eq_def]

theorem flushLit_ne (lit : List Nat) (h1 : lit ≠ []) (h2 : lit.length ≤ 128) :
    flushLit lit = some [(lit.length - 1) :: lit] := by
  match lit with
  | x :: xs =>
    rw [flushLit, litChunk_eq (x :: xs) (by simp) h2]
    rfl

theorem packSignedUnsigned_run (c a : Nat) (h1 : 1 ≤ c) (h2 : c ≤ 128)
    (ha : a ≤ 255) : packSignedUnsigned (-(c : Int)) a = some [256 - c, a] := by
  unfold packSignedUnsigned
  rw [if_pos ⟨by omega, by omega, ha⟩]
  congr 2
  omega

theorem decode_lit (L rest : List Nat) (h1 : 1 ≤ L.length) (h2 : L.length ≤ 128) :
    decodePackBits ((L.length - 1) :: (L ++ rest)) = L ++ decodePackBits rest := by
  rw [decodePackBits_cons]
  rw [if_pos (by omega)]
  have hlen : L.length - 1 + 1 = L.length := by omega
  rw [hlen, List.take_left, List.drop_left]

theorem decode_run (c a : Nat) (rest : List Nat) (h1 : 1 ≤ c) (h2 : c ≤ 128) :
    decodePackBits ((256 - c) :: a :: rest) =
      List.replicate (c + 1) a ++ decodePackBits rest := by
  rw [decodePackBits_cons]
  rw [if_neg (by omega)]
  have : 257 - (256 - c) = c + 1 := by omega
  rw [this]

theorem compressAux_roundtrip (n : Nat) : ∀ l lit : List Nat, l.length ≤ n →
    lit.length + l.length ≤ 128 → (∀ b ∈ l, b ≤ 255) →
    ∃ cs, compressAux lit l = some cs ∧
      decodePackBits cs.flatten = lit ++ l := by
  induction n with
  | zero =>
    intro l lit hn hsum _
    have hl : l = [] := by
      cases l
      · rfl
      · simp at hn
    subst hl
    match lit with
    | [] => exact ⟨[], by rw [compressAux_nil]; rfl, by simp [decodePackBits_nil]⟩
    | x :: xs =>
      have hlen : (x :: xs).length ≤ 128 := by simp at hsum ⊢; omega
      refine ⟨[(((x :: xs).length - 1) :: (x :: xs))], ?_, ?_⟩
      · rw [compressAux_nil, flushLit_ne (x :: xs) (by simp) hlen]
      · have := decode_lit (x :: xs) [] (by simp) hlen
        simpa [decodePackBits_nil] using this
  | succ n ih =>
    intro l lit hn hsum hb
    match l with
    | [] =>
      match lit with
      | [] => exact ⟨[], by rw [compressAux_nil]; rfl, by simp [decodePackBits_nil]⟩
      | x :: xs =>
        have hlen : (x :: xs).length ≤ 128 := by simp at hsum ⊢; omega
        refine ⟨[(((x :: xs).length - 1) :: (x :: xs))], ?_, ?_⟩
        · rw [compressAux_nil, flushLit_ne (x :: xs) (by simp) hlen]
        · have := decode_lit (x :: xs) [] (by simp) hlen
          simpa [decodePackBits_nil] using this
    | a :: rest =>
      by_cases hc : 0 < runLen (a :: rest)
      · -- a run is found at the current position
        have hcle : runLen (a :: rest) ≤ rest.length := runLen_le a rest
        have hrest : rest.length ≤ n := by simp at hn; omega
        have ha : a ≤ 255 := hb a (by simp)
        have hrb : rest.length + 1 ≤ 128 := by simp at hsum; omega
        obtain ⟨t, ht, hdect⟩ := ih (rest.drop (runLen (a :: rest))) []
          (by simp [List.length_drop]; omega)
          (by simp [List.length_drop]; omega)
          (fun b hbmem => hb b (List.mem_cons_of_mem a (List.mem_of_mem_drop hbmem)))
        have hrun := packSignedUnsigned_run (runLen (a :: rest)) a (by omega)
          (by omega) ha
        have hsplit : List.replicate (runLen (a :: rest) + 1) a ++
            rest.drop (runLen (a :: rest)) = a :: rest := by
          conv_rhs => rw [← List.take_append_drop (runLen (a :: rest) + 1) (a :: rest)]
          rw [take_runLen, List.drop_succ_cons]
        match lit with
        | [] =>
          refine ⟨[256 - runLen (a :: rest), a] :: t, ?_, ?_⟩
          · rw [compressAux_cons, if_pos hc, hrun, ht]
            rfl
          · simp only [List.flatten_cons, List.cons_append, List.nil_append]
            rw [decode_run (runLen (a :: rest)) a t.flatten (by omega) (by omega),
              hdect]
            simpa using hsplit
        | x :: xs =>
          have hlitlen : (x :: xs).length ≤ 128 := by simp at hsum ⊢; omega
          refine ⟨(((x :: xs).length - 1) :: (x :: xs)) ::
            [256 - runLen (a :: rest), a] :: t, ?_, ?_⟩
          · rw [compressAux_cons, if_pos hc, flushLit_ne (x :: xs) (by simp) hlitlen,
              hrun, ht]
            rfl
          · rw [List.flatten_cons, List.flatten_cons, List.cons_append]
            rw [decode_lit (x :: xs) ([256 - runLen (a :: rest), a] ++ t.flatten)
              (by simp) hlitlen]
            simp only [List.cons_append, List.nil_append]
            rw [decode_run (runLen (a :: rest)) a t.flatten (by omega) (by omega),
              hdect]
            simp only [List.nil_append]
            rw [hsplit]
      · -- no run: the literal span is extended by one byte
        have hrest : rest.length ≤ n := by simp at hn; omega
        obtain ⟨cs, hcs, hdec⟩ := ih rest (lit ++ [a])
          hrest
          (by simp at hsum ⊢; omega)
          (fun b hbmem => hb b (List.mem_cons_of_mem a hbmem))
        refine ⟨cs, ?_, ?_⟩
        · rw [compressAux_cons, if_neg hc]
          exact hcs
        · rw [hdec]
          simp

/-- C1: for every byte sequence `S` of length at most 128, PackBits-decoding
the concatenation of the chunks produced by `_compress_tiff` on `S`
reproduces `S` exactly (and no `struct.pack` range error occurs). -/
theorem compress_tiff_roundtrip (S : List Nat) (hlen : S.length ≤ 128)
    (hbytes : ∀ b ∈ S, b ≤ 255) :
    ∃ cs, compress_tiff S = some cs ∧ decodePackBits cs.flatten = S := by
  obtain ⟨cs, h1, h2⟩ := compressAux_roundtrip 128 S [] (by omega) (by simpa) hbytes
  exact ⟨cs, h1, by simpa using h2⟩

/-- Witness for C1 at the concrete input `[1, 1, 1, 2]`. -/
theorem compress_tiff_roundtrip_check :
    decodePackBits ((compress_tiff [1, 1, 1, 2]).getD []).flatten = [1, 1, 1, 2] := by
  obtain ⟨cs, h1, h2⟩ := compress_tiff_roundtrip [1, 1, 1, 2] (by decide) (by decide)
  rw [h1]
  simpa using h2

/-! ### All-zero stripes (`_empty_row`'s sanity check) -/

theorem runLen_replicate (n a : Nat) : runLen (List.replicate (n + 1) a) = n := by
  induction n with
  | zero => simp [runLen]
  | succ m ih =>
    rw [List.replicate_succ, List.replicate_succ]
    rw [show runLen (a :: a :: List.replicate m a) =
      if a = a then runLen (a :: List.replicate m a) + 1 else 0 from rfl]
    rw [if_pos rfl, ← List.replicate_succ, ih]

/-- C5 (amended): for every positive multiple of 8 that is at most 128,
compressing `N` zero bytes yields exactly the single 2-byte chunk
`(1 - N) as signed byte, 0x00`.  (For `N ≥ 130` the signed pack of the
marker is out of range: see `compress_tiff_zero_overflow`.) -/
theorem compress_tiff_zeros (N : Nat) (hpos : 0 < N) (hmul : N % 8 = 0)
    (hle : N ≤ 128) :
    compress_tiff (List.replicate N 0) =
      some [[((1 - (N : Int)) % 256).toNat, 0]] ∧
    [((1 - (N : Int)) % 256).toNat, 0].length = 2 := by
  refine ⟨?_, rfl⟩
  have h8 : 8 ≤ N := by omega
  obtain ⟨m, hm⟩ : ∃ m, N = m + 1 := ⟨N - 1, by omega⟩
  subst hm
  have hrun : runLen (0 :: List.replicate m 0) = m := by
    have := runLen_replicate m 0
    rwa [List.replicate_succ] at this
  rw [compress_tiff, List.replicate_succ, compressAux_cons, hrun,
    if_pos (by omega)]
  rw [packSignedUnsigned_run m 0 (by omega) (by omega) (by omega)]
  rw [show (List.replicate m 0).drop m = [] by simp]
  rw [compressAux_nil]
  rw [show flushLit [] = some [] from rfl]
  have hval : ((1 - ((m : Int) + 1)) % 256).toNat = 256 - m := by omega
  simp only [Nat.cast_add, Nat.cast_one, hval]
  rfl

/-- Counterexample to C5 as stated: at `N = 136` (a positive multiple of 8)
the compressor does not produce 2 bytes; the signed pack of the marker
`1 - 136 = -135` is out of range and the code raises `struct.error`. -/
theorem compress_tiff_zero_overflow :
    compress_tiff (List.replicate 136 0) = none ∧
    compress_tiff (List.replicate 136 0) ≠
      some [[((1 - (136 : Int)) % 256).toNat, 0]] := by
  have h : compress_tiff (List.replicate 136 0) = none := by
    have hrun : runLen (0 :: List.replicate 135 0) = 135 := by
      have := runLen_replicate 135 0
      rwa [List.replicate_succ] at this
    rw [compress_tiff, List.replicate_succ, compressAux_cons, hrun,
      if_pos (by omega)]
    rw [show packSignedUnsigned (-((135 : Nat) : Int)) 0 = none by
      unfold packSignedUnsigned
      rw [if_neg]
      intro h
      omega]
    rfl
  exact ⟨h, by rw [h]; simp⟩

/-- Witness for C5 (amended) at `N = 8`. -/
theorem compress_tiff_zeros_check :
    compress_tiff (List.replicate 8 0) = some [[249, 0]] := by
  have h := (compress_tiff_zeros 8 (by decide) (by decide) (by decide)).1
  rw [h]
  decide

/-! ## Image model and row rasterizer (`_raw_row`) -/

/-- A pixel sample as returned by `img.load()[(x, y)]`: a single grayscale
value or an RGB triple. -/
inductive Color where
  | gray (v : Nat)
  | rgb (r g b : Nat)

/-- The value compared against the threshold: the raw value for grayscale,
`sum(color) / 3` (Python true division; exact in `ℚ` for 8-bit samples)
for RGB. -/
def luminance : Color → ℚ
  | .gray v => v
  | .rgb r g b => (r + g + b : ℚ) / 3

/-- An image source: PIL-style size and pixel accessor. -/
structure Image where
  width : Nat
  height : Nat
  px : Nat → Nat → Color

/-- The row `y = stripe_idx * 8 + bit_index - y_offset`: the image row addressed by
a given bit of a given stripe byte. -/
def bitY (stripe_idx bit_index : Nat) (y_offset : Int) : Int :=
  (stripe_idx : Int) * 8 + bit_index - y_offset

/-- The dot at column `x`, image row `y`: `1` when the pixel is in bounds
and not above the 230 luminance threshold, else `0`. -/
def dotVal (img : Image) (x : Nat) (y : Int) : Nat :=
  if x < img.width ∧ 0 ≤ y ∧ y < img.height then
    if 230 < luminance (img.px x y.toNat) then 0 else 1
  else 0

/-- One byte of `_raw_row`: the inner `for bit_index in range(8)` loop,
accumulating `bits |= (0 if px > 230 else 1) << (7 - bit_index)` for
in-bounds pixels. -/
def rawRowByte (img : Image) (x : Nat) (y_offset : Int) (stripe_idx : Nat) : Nat :=
  (List.range 8).foldl
    (fun bits bit_index =>
      if x < img.width ∧ 0 ≤ bitY stripe_idx bit_index y_offset ∧
          bitY stripe_idx bit_index y_offset < img.height then
        bits ||| ((if 230 < luminance
            (img.px x (bitY stripe_idx bit_index y_offset).toNat) then 0 else 1)
          <<< (7 - bit_index))
      else bits)
    0

/-- Model of `_raw_row(img, img_bytes, stripe_count, x, y_offset)`: the
`stripe_count` bytes of one column stripe (each yield is one byte). -/
def raw_row (img : Image) (stripe_count : Nat) (x : Nat) (y_offset : Int) :
    List Nat :=
  (List.range stripe_count).map (rawRowByte img x y_offset)

theorem dot_step (img : Image) (x : Nat) (y : Int) (bits s : Nat) :
    (if x < img.width ∧ 0 ≤ y ∧ y < img.height then
      bits ||| ((if 230 < luminance (img.px x y.toNat) then 0 else 1) <<< s)
    else bits) = bits ||| dotVal img x y <<< s := by
  unfold dotVal
  split
  · rfl
  · simp

theorem rawRowByte_eq (img : Image) (x : Nat) (yo : Int) (si : Nat) :
    rawRowByte img x yo si =
      0 ||| dotVal img x (bitY si 0 yo) <<< (7 - 0)
        ||| dotVal img x (bitY si 1 yo) <<< (7 - 1)
        ||| dotVal img x (bitY si 2 yo) <<< (7 - 2)
        ||| dotVal img x (bitY si 3 yo) <<< (7 - 3)
        ||| dotVal img x (bitY si 4 yo) <<< (7 - 4)
        ||| dotVal img x (bitY si 5 yo) <<< (7 - 5)
        ||| dotVal img x (bitY si 6 yo) <<< (7 - 6)
        ||| dotVal img x (bitY si 7 yo) <<< (7 - 7) := by
  rw [rawRowByte, show List.range 8 = [0, 1, 2, 3, 4, 5, 6, 7] from rfl]
  simp only [List.foldl_cons, List.foldl_nil, dot_step]

theorem dotVal_le_one (img : Image) (x : Nat) (y : Int) : dotVal img x y ≤ 1 := by
  unfold dotVal
  split
  · split <;> omega
  · omega

theorem dotVal_eq_one (img : Image) (x : Nat) (y : Int) :
    dotVal img x y = 1 ↔
      x < img.width ∧ 0 ≤ y ∧ y < img.height ∧
        luminance (img.px x y.toNat) ≤ 230 := by
  unfold dotVal
  split
  · rename_i hin
    split
    · rename_i hgt
      constructor
      · omega
      · intro h
        exact absurd h.2.2.2 (not_le.mpr hgt)
    · rename_i hgt
      simp [hin, not_lt.mp hgt]
  · rename_i hout
    constructor
    · omega
    · intro h
      exact absurd ⟨h.1, h.2.1, h.2.2.1⟩ hout

theorem testBit_le_one_pos (d : Nat) (hd : d ≤ 1) (j : Nat) (hj : 1 ≤ j) :
    Nat.testBit d j = false := by
  apply Nat.testBit_lt_two_pow
  calc d < 2 := by omega
    _ = 2 ^ 1 := by norm_num
    _ ≤ 2 ^ j := Nat.pow_le_pow_right (by omega) hj

theorem testBit_le_one_zero (d : Nat) (hd : d ≤ 1) :
    Nat.testBit d 0 = decide (d = 1) := by
  interval_cases d <;> decide

theorem testBit_byte (d0 d1 d2 d3 d4 d5 d6 d7 : Nat)
    (h0 : d0 ≤ 1) (h1 : d1 ≤ 1) (h2 : d2 ≤ 1) (h3 : d3 ≤ 1)
    (h4 : d4 ≤ 1) (h5 : d5 ≤ 1) (h6 : d6 ≤ 1) (h7 : d7 ≤ 1)
    (k : Nat) (hk : k < 8) :
    Nat.testBit
      (0 ||| d0 <<< (7 - 0) ||| d1 <<< (7 - 1) ||| d2 <<< (7 - 2)
         ||| d3 <<< (7 - 3) ||| d4 <<< (7 - 4) ||| d5 <<< (7 - 5)
         ||| d6 <<< (7 - 6) ||| d7 <<< (7 - 7)) (7 - k) = true ↔
      [d0, d1, d2, d3, d4, d5, d6, d7].getD k 0 = 1 := by
  interval_cases k <;>
    (simp [Nat.testBit_or, Nat.testBit_shiftLeft, testBit_le_one_pos,
      testBit_le_one_zero, h0, h1, h2, h3, h4, h5, h6, h7]; omega)

theorem raw_row_getD (img : Image) (sc x : Nat) (yo : Int) (bi : Nat)
    (h : bi < sc) :
    (raw_row img sc x yo).getD bi 0 = rawRowByte img x yo bi := by
  rw [raw_row]
  have hlen : bi < ((List.range sc).map (rawRowByte img x yo)).length := by
    simpa using h
  rw [List.getD_eq_getElem _ _ hlen]
  simp

theorem byte_lt_256 (d0 d1 d2 d3 d4 d5 d6 d7 : Nat)
    (h0 : d0 ≤ 1) (h1 : d1 ≤ 1) (h2 : d2 ≤ 1) (h3 : d3 ≤ 1)
    (h4 : d4 ≤ 1) (h5 : d5 ≤ 1) (h6 : d6 ≤ 1) (h7 : d7 ≤ 1) :
    (0 ||| d0 <<< (7 - 0) ||| d1 <<< (7 - 1) ||| d2 <<< (7 - 2)
       ||| d3 <<< (7 - 3) ||| d4 <<< (7 - 4) ||| d5 <<< (7 - 5)
       ||| d6 <<< (7 - 6) ||| d7 <<< (7 - 7)) < 256 := by
  have h256 : (256 : Nat) = 2 ^ 8 := by norm_num
  rw [h256]
  repeat
    apply Nat.or_lt_two_pow
  all_goals simp [Nat.shiftLeft_eq]
  all_goals nlinarith

/-- C3: for every image source, column index, stripe byte count and offset,
`_raw_row` returns exactly `stripe_count` bytes; bit `7 - bit_index` of byte
`byte_index` is set exactly when the image row
`y = byte_index * 8 + bit_index - offset` and the column are in bounds and
the sampled luminance is at most 230; all bytes are below 256 (every other
bit is 0). -/
theorem raw_row_spec (img : Image) (stripe_count x : Nat) (y_offset : Int) :
    (raw_row img stripe_count x y_offset).length = stripe_count ∧
    (∀ bi, bi < stripe_count →
      (raw_row img stripe_count x y_offset).getD bi 0 < 256) ∧
    (∀ bi k, bi < stripe_count → k < 8 →
      (Nat.testBit ((raw_row img stripe_count x y_offset).getD bi 0)
          (7 - k) = true ↔
        (x < img.width ∧ 0 ≤ bitY bi k y_offset ∧
          bitY bi k y_offset < img.height ∧
          luminance (img.px x (bitY bi k y_offset).toNat) ≤ 230))) := by
  refine ⟨by simp [raw_row], ?_, ?_⟩
  · intro bi hbi
    rw [raw_row_getD img stripe_count x y_offset bi hbi, rawRowByte_eq]
    exact byte_lt_256 _ _ _ _ _ _ _ _
      (dotVal_le_one img x _) (dotVal_le_one img x _) (dotVal_le_one img x _)
      (dotVal_le_one img x _) (dotVal_le_one img x _) (dotVal_le_one img x _)
      (dotVal_le_one img x _) (dotVal_le_one img x _)
  · intro bi k hbi hk
    rw [raw_row_getD img stripe_count x y_offset bi hbi, rawRowByte_eq]
    rw [testBit_byte _ _ _ _ _ _ _ _
      (dotVal_le_one img x _) (dotVal_le_one img x _) (dotVal_le_one img x _)
      (dotVal_le_one img x _) (dotVal_le_one img x _) (dotVal_le_one img x _)
      (dotVal_le_one img x _) (dotVal_le_one img x _) k hk]
    interval_cases k <;>
      (rw [show ∀ a b c d e f g h : Nat,
        List.getD [a, b, c, d, e, f, g, h] _ 0 = _ from fun _ _ _ _ _ _ _ _ => rfl]
       ; exact dotVal_eq_one img x _)

/-! ## Printer profile resolver (`STRIPE_SIZE`) -/

/-- The `STRIPE_SIZE` table: model identifier to stripe size in dots. -/
def STRIPE_SIZE (model : String) : Option Nat :=
  if model = "P950NW" then some 408
  else if model = "9800PCN" then some 312
  else none

/-- The default `STRIPE_SIZE_DEFAULT = STRIPE_SIZE['P950NW']`. -/
def STRIPE_SIZE_DEFAULT : Nat := 408

/-- The lookup `STRIPE_SIZE.get(printer_model, STRIPE_SIZE_DEFAULT)`, where
`printer_model` may be `None`. -/
def resolveStripeSize : Option String → Nat
  | some m => (STRIPE_SIZE m).getD STRIPE_SIZE_DEFAULT
  | none => STRIPE_SIZE_DEFAULT

theorem resolveStripeSize_cases (m : Option String) :
    resolveStripeSize m = 408 ∨ resolveStripeSize m = 312 := by
  match m with
  | none => exact Or.inl rfl
  | some s =>
    rw [resolveStripeSize]
    unfold STRIPE_SIZE
    split
    · exact Or.inl rfl
    · split
      · exact Or.inr rfl
      · exact Or.inl rfl

/-! ## Job framer (`render`), with `USE_TIFF = False` as in the source -/

/-- Model of `struct.pack('<H', n)` for the in-range values the framer produces. -/
def u16le (n : Nat) : List Nat := [n % 256, n / 256 % 256]

/-- Model of `struct.pack('<I', n)` for the in-range values the framer produces. -/
def u32le (n : Nat) : List Nat :=
  [n % 256, n / 256 % 256, n / 65536 % 256, n / 16777216 % 256]

/-- Model of `_empty_row(stripe_count, use_tiff)`: one framed blank row.  In the
TIFF branch a failed pack (`none`) is modelled as `[]`; `render` only ever
takes the simple branch (`USE_TIFF = False`). -/
def empty_row (stripe_count : Nat) (use_tiff : Bool) : List Nat :=
  if use_tiff then
    match compress_tiff (List.replicate stripe_count 0) with
    | some cs => 71 :: u16le cs.flatten.length ++ cs.flatten
    | none => []
  else
    71 :: u16le stripe_count ++ List.replicate stripe_count 0

/-- The print-information command (`ESC i z`): fixed flags, zeroed media
fields, 32-bit raster number, starting-page byte, reserved zero. -/
def printInfo (raster_number : Nat) (first : Bool) : List Nat :=
  [27, 105, 122, 192, 0, 0, 0] ++ u32le raster_number ++
    [if first then 0 else 1, 0]

/-- Lines 131-135 of the source: an explicit `printer_model` wins; otherwise
a truthy `ip` is probed (`detect` abstracts `detect_printer_model`, cache
and network included); otherwise `None`. -/
def resolvedModel (detect : String → Option String)
    (ip printer_model : Option String) : Option String :=
  match printer_model with
  | some m => some m
  | none =>
    match ip with
    | some i => if i = "" then none else detect i
    | none => none

/-- The chunks yielded for one image: print-information command,
compression-mode selector (simple), top margin, per-column header+row pairs,
bottom margin.  `first` is the value of the `first` flag at the
print-information command (already cleared by the loop header). -/
def imageChunks (ss sc t b : Nat) (first : Bool) (img : Image) :
    List (List Nat) :=
  [printInfo (img.width + t + b) first,
   [77, 0],
   (List.replicate t (empty_row sc false)).flatten]
  ++ (List.range img.width).flatMap (fun x =>
      [71 :: u16le (raw_row img sc x ((ss : Int) - img.height)).length,
       raw_row img sc x ((ss : Int) - img.height)])
  ++ [(List.replicate t (empty_row sc false)).flatten]

/-- The per-image loop of `render`: the `first` flag is cleared at the top
of the loop body, before the print-information command is emitted. -/
def renderImages (ss sc t b : Nat) : Bool → List Image → List (List Nat)
  | _, [] => []
  | first, img :: rest =>
    (if first then ([] : List (List Nat)) else [[12]])
      ++ imageChunks ss sc t b (if first then false else first) img
      ++ renderImages ss sc t b (if first then false else first) rest

/-- Model of `render(images, ip, printer_model, top_margin, bottom_margin)`: the
byte chunks yielded by the generator, in order. -/
def render (detect : String → Option String) (images : List Image)
    (ip printer_model : Option String) (top_margin bottom_margin : Nat) :
    List (List Nat) :=
  [[27, 64], [27, 105, 97, 1], [27, 105, 77, 0], [27, 105, 100, 0, 0]]
    ++ renderImages (resolveStripeSize (resolvedModel detect ip printer_model))
        (resolveStripeSize (resolvedModel detect ip printer_model) / 8)
        top_margin bottom_margin true images
    ++ [[26]]

/-- A Row Frame: marker byte `G`, 16-bit little-endian declared length,
payload. -/
def rowFrame (p : List Nat) : List Nat := 71 :: u16le p.length ++ p

/-- The same image block with every Row Frame as a single chunk. -/
def imageFramed (ss sc t b : Nat) (first : Bool) (img : Image) :
    List (List Nat) :=
  [printInfo (img.width + t + b) first, [77, 0]]
  ++ List.replicate t (rowFrame (List.replicate sc 0))
  ++ (List.range img.width).map (fun x =>
      rowFrame (raw_row img sc x ((ss : Int) - img.height)))
  ++ List.replicate t (rowFrame (List.replicate sc 0))

def renderImagesFramed (ss sc t b : Nat) : Bool → List Image → List (List Nat)
  | _, [] => []
  | first, img :: rest =>
    (if first then ([] : List (List Nat)) else [[12]])
      ++ imageFramed ss sc t b (if first then false else first) img
      ++ renderImagesFramed ss sc t b (if first then false else first) rest

/-- The stream of `render`, re-chunked so that every Row Frame is one chunk. -/
def renderFramed (detect : String → Option String) (images : List Image)
    (ip printer_model : Option String) (top_margin bottom_margin : Nat) :
    List (List Nat) :=
  [[27, 64], [27, 105, 97, 1], [27, 105, 77, 0], [27, 105, 100, 0, 0]]
    ++ renderImagesFramed
        (resolveStripeSize (resolvedModel detect ip printer_model))
        (resolveStripeSize (resolvedModel detect ip printer_model) / 8)
        top_margin bottom_margin true images
    ++ [[26]]

theorem empty_row_simple (sc : Nat) :
    empty_row sc false = rowFrame (List.replicate sc 0) := by
  rw [empty_row, rowFrame]
  simp

theorem flatMap_pair_flatten (l : List Nat) (f g : Nat → List Nat) :
    (l.flatMap (fun x => [f x, g x])).flatten =
      l.flatMap (fun x => f x ++ g x) := by
  induction l with
  | nil => rfl
  | cons a tl ih => simp [ih]

theorem map_flatten_eq_flatMap (l : List Nat) (h : Nat → List Nat) :
    (l.map h).flatten = l.flatMap h := by
  induction l with
  | nil => rfl
  | cons a tl ih => simp [ih]

theorem imageChunks_flatten (ss sc t b : Nat) (first : Bool) (img : Image) :
    (imageChunks ss sc t b first img).flatten =
      (imageFramed ss sc t b first img).flatten := by
  rw [imageChunks, imageFramed]
  simp [empty_row_simple, rowFrame, flatMap_pair_flatten, map_flatten_eq_flatMap]

theorem renderImages_flatten (ss sc t b : Nat) (images : List Image) :
    ∀ first, (renderImages ss sc t b first images).flatten =
      (renderImagesFramed ss sc t b first images).flatten := by
  induction images with
  | nil => intro first; rfl
  | cons img rest ih =>
    intro first
    rw [renderImages, renderImagesFramed]
    simp only [List.flatten_append]
    rw [imageChunks_flatten, ih]

theorem render_flatten (detect : String → Option String) (images : List Image)
    (ip pm : Option String) (t b : Nat) :
    (render detect images ip pm t b).flatten =
      (renderFramed detect images ip pm t b).flatten := by
  rw [render, renderFramed]
  simp only [List.flatten_append]
  rw [renderImages_flatten]

/-- C7: unknown identifiers and absent input resolve to the designated
default stripe size; the two known identifiers resolve to their own fixed,
distinct sizes. -/
theorem stripe_size_resolution :
    (∀ m : String, m ≠ "P950NW" → m ≠ "9800PCN" →
      resolveStripeSize (some m) = STRIPE_SIZE_DEFAULT) ∧
    resolveStripeSize none = STRIPE_SIZE_DEFAULT ∧
    resolveStripeSize (some "P950NW") = 408 ∧
    resolveStripeSize (some "9800PCN") = 312 ∧
    (408 : Nat) ≠ 312 := by
  refine ⟨?_, rfl, by decide, by decide, by decide⟩
  intro m h1 h2
  simp [resolveStripeSize, STRIPE_SIZE, h1, h2, STRIPE_SIZE_DEFAULT]

/-- Witness for C7 at the unknown identifier `"PT-FOO"`. -/
theorem stripe_size_resolution_check :
    resolveStripeSize (some "PT-FOO") = STRIPE_SIZE_DEFAULT :=
  stripe_size_resolution.1 "PT-FOO" (by decide) (by decide)

theorem mem_imageFramed (ss sc t b : Nat) (first : Bool) (img : Image)
    (c : List Nat) (hc : c ∈ imageFramed ss sc t b first img)
    (h71 : c.getD 0 0 = 71) : ∃ p, c = rowFrame p ∧ p.length = sc := by
  rw [imageFramed] at hc
  rcases List.mem_append.mp hc with h | h
  · rcases List.mem_append.mp h with h2 | h2
    · rcases List.mem_append.mp h2 with h3 | h3
      · simp only [List.mem_cons, List.not_mem_nil, or_false] at h3
        rcases h3 with h4 | h4 <;> (rw [h4] at h71; simp [printInfo] at h71)
      · exact ⟨List.replicate sc 0, List.eq_of_mem_replicate h3, by simp⟩
    · obtain ⟨x, _, hmap⟩ := List.mem_map.mp h2
      exact ⟨raw_row img sc x ((ss : Int) - img.height), hmap.symm,
        by simp [raw_row]⟩
  · exact ⟨List.replicate sc 0, List.eq_of_mem_replicate h, by simp⟩

theorem mem_renderImagesFramed (ss sc t b : Nat) (images : List Image) :
    ∀ (first : Bool) (c : List Nat),
      c ∈ renderImagesFramed ss sc t b first images → c.getD 0 0 = 71 →
      ∃ p, c = rowFrame p ∧ p.length = sc := by
  induction images with
  | nil =>
    intro first c hc
    simp [renderImagesFramed] at hc
  | cons img rest ih =>
    intro first c hc h71
    rw [renderImagesFramed] at hc
    rcases List.mem_append.mp hc with h | h
    · rcases List.mem_append.mp h with h2 | h2
      · by_cases hf : first
        · simp [hf] at h2
        · simp [hf] at h2
          rw [h2] at h71
          simp at h71
      · exact mem_imageFramed ss sc t b _ img c h2 h71
    · exact ih _ c h h71

/-- C4: the byte stream of `render` is, byte for byte, the stream of
`renderFramed`, in which every chunk starting with the marker `G` is a Row
Frame `G ++ u16le (len payload) ++ payload`; in simple mode every payload
has exactly the configured stripe byte count, and the declared 16-bit
little-endian length decodes to the payload length. -/
theorem render_row_frames (detect : String → Option String)
    (images : List Image) (ip pm : Option String) (t b : Nat) :
    ((render detect images ip pm t b).flatten =
      (renderFramed detect images ip pm t b).flatten) ∧
    (∀ c ∈ renderFramed detect images ip pm t b, c.getD 0 0 = 71 →
      ∃ p, c = rowFrame p ∧
        p.length = resolveStripeSize (resolvedModel detect ip pm) / 8 ∧
        (u16le p.length).getD 0 0 + 256 * (u16le p.length).getD 1 0 =
          p.length) := by
  refine ⟨render_flatten detect images ip pm t b, ?_⟩
  intro c hc h71
  rw [renderFramed] at hc
  rcases List.mem_append.mp hc with h | h
  · rcases List.mem_append.mp h with h2 | h2
    · simp only [List.mem_cons, List.mem_singleton, List.not_mem_nil,
        or_false] at h2
      rcases h2 with h3 | h3 | h3 | h3 <;> (rw [h3] at h71; simp at h71)
    · obtain ⟨p, hp, hlen⟩ := mem_renderImagesFramed _ _ t b images true c h2 h71
      refine ⟨p, hp, hlen, ?_⟩
      have hsc := resolveStripeSize_cases (resolvedModel detect ip pm)
      rcases hsc with hs | hs <;> (rw [hlen, hs]; decide)
  · simp only [List.mem_singleton] at h
    rw [h] at h71
    simp at h71

/-- Witness for C4: in a one-image job on the 9800PCN profile with a
one-row top margin, the first margin chunk is a Row Frame with a 39-byte
payload. -/
theorem render_row_frames_check :
    ∃ p, (renderFramed (fun _ => none) [⟨1, 1, fun _ _ => Color.gray 255⟩]
        none (some "9800PCN") 1 0).getD 6 [] = rowFrame p ∧ p.length = 39 := by
  have h := (render_row_frames (fun _ => none)
    [⟨1, 1, fun _ _ => Color.gray 255⟩] none (some "9800PCN") 1 0).2
  obtain ⟨p, hp, hlen, _⟩ := h
    ((renderFramed (fun _ => none) [⟨1, 1, fun _ _ => Color.gray 255⟩]
      none (some "9800PCN") 1 0).getD 6 [])
    (by decide) (by decide)
  refine ⟨p, hp, ?_⟩
  rw [hlen]
  decide

/-- C6: one image block is the print-information and compression commands,
`t` empty Row Frames, the data Row Frames, then exactly `top_margin = t`
further empty Row Frames, whatever `bottom_margin = b` is; everything after
the print-information command is independent of `b`. -/
theorem bottom_margin_count (detect : String → Option String)
    (images : List Image) (ip pm : Option String) (t b : Nat) :
    ((render detect images ip pm t b).flatten =
      (renderFramed detect images ip pm t b).flatten) ∧
    (∀ (ss sc : Nat) (first : Bool) (img : Image),
      imageFramed ss sc t b first img =
        ([printInfo (img.width + t + b) first, [77, 0]]
          ++ List.replicate t (rowFrame (List.replicate sc 0))
          ++ (List.range img.width).map (fun x =>
              rowFrame (raw_row img sc x ((ss : Int) - img.height))))
          ++ List.replicate t (rowFrame (List.replicate sc 0)) ∧
      ∀ b' : Nat, (imageFramed ss sc t b first img).drop 1 =
        (imageFramed ss sc t b' first img).drop 1) := by
  refine ⟨render_flatten detect images ip pm t b, ?_⟩
  intro ss sc first img
  constructor
  · rw [imageFramed]
  · intro b'
    rfl

/-- C9: rendering with an unknown or absent model is byte-identical to
rendering with `"P950NW"`, because the default stripe size is the P950NW
size (408 dots). -/
theorem render_default_model (detect : String → Option String)
    (images : List Image) (t b : Nat) :
    (render detect images none none t b =
      render detect images none (some "P950NW") t b) ∧
    (∀ m : String, m ≠ "P950NW" → m ≠ "9800PCN" →
      render detect images none (some m) t b =
        render detect images none (some "P950NW") t b) ∧
    STRIPE_SIZE_DEFAULT = 408 ∧ STRIPE_SIZE "P950NW" = some 408 := by
  refine ⟨?_, ?_, rfl, by decide⟩
  · simp [render, resolvedModel, resolveStripeSize, STRIPE_SIZE,
      STRIPE_SIZE_DEFAULT]
  · intro m h1 h2
    simp [render, resolvedModel, resolveStripeSize, STRIPE_SIZE,
      STRIPE_SIZE_DEFAULT, h1, h2]

/-- Witness for C9 at the unknown identifier `"PT-FOO"`. -/
theorem render_default_model_check :
    render (fun _ => none) [⟨1, 1, fun _ _ => Color.gray 255⟩] none
        (some "PT-FOO") 1 1 =
      render (fun _ => none) [⟨1, 1, fun _ _ => Color.gray 255⟩] none
        (some "P950NW") 1 1 :=
  (render_default_model (fun _ => none)
    [⟨1, 1, fun _ _ => Color.gray 255⟩] 1 1).2.1 "PT-FOO" (by decide) (by decide)

/-- C10: with an explicit printer model, `render` is independent of the
detection collaborator (cache and network) and of the `ip` argument, hence
deterministic in its remaining inputs. -/
theorem render_explicit_model_no_detection
    (d1 d2 : String → Option String) (images : List Image)
    (ip1 ip2 : Option String) (m : String) (t b : Nat) :
    render d1 images ip1 (some m) t b = render d2 images ip2 (some m) t b :=
  rfl

/-- C2 evaluated at the failing input (two 1x1 white images, model
9800PCN, margins 0): the stream contains exactly one page-feed chunk,
between the two image blocks, but the starting-page byte of BOTH
print-information commands is 1 — the `first` flag is cleared at the top
of the loop before the command is built, so the byte never differs between
the first and the second image. -/
theorem render_two_images_flag_bug :
    (render (fun _ => none) [⟨1, 1, fun _ _ => Color.gray 255⟩,
        ⟨1, 1, fun _ _ => Color.gray 255⟩] none (some "9800PCN") 0 0).count
      [12] = 1 ∧
    (render (fun _ => none) [⟨1, 1, fun _ _ => Color.gray 255⟩,
        ⟨1, 1, fun _ _ => Color.gray 255⟩] none (some "9800PCN") 0 0).getD 10
      [] = [12] ∧
    ((render (fun _ => none) [⟨1, 1, fun _ _ => Color.gray 255⟩,
        ⟨1, 1, fun _ _ => Color.gray 255⟩] none (some "9800PCN") 0 0).getD 4
      []).getD 11 0 = 1 ∧
    ((render (fun _ => none) [⟨1, 1, fun _ _ => Color.gray 255⟩,
        ⟨1, 1, fun _ _ => Color.gray 255⟩] none (some "9800PCN") 0 0).getD 11
      []).getD 11 0 = 1 := by
  refine ⟨?_, ?_, ?_, ?_⟩ <;> decide

/-- Witness for C3: a 1-wide, 1-tall black (gray 0) image, one stripe byte,
offset 0: bit 7 of byte 0 is set. -/
theorem raw_row_spec_check :
    Nat.testBit
        ((raw_row ⟨1, 1, fun _ _ => Color.gray 0⟩ 1 0 0).getD 0 0) (7 - 0)
      = true := by
  have h := (raw_row_spec ⟨1, 1, fun _ _ => Color.gray 0⟩ 1 0 0).2.2
    0 0 (by decide) (by decide)
  rw [h]
  refine ⟨by decide, by decide, by decide, ?_⟩
  show luminance (Color.gray 0) ≤ 230
  rw [luminance]
  norm_num

/-! ## Model detection (`detect_printer_model`) -/

/-- The outcome of `urlopen`: a successful read, or a `URLError` carrying an
optional HTTP status code (`code` attribute) and, for HTTP errors, a
readable body. -/
inductive UrlResult where
  | success (body : List Nat)
  | failure (code : Option Nat) (body : List Nat)

def bytesPrefixOf : List Nat → List Nat → Bool
  | [], _ => true
  | _ :: _, [] => false
  | a :: as, b :: bs => (a == b) && bytesPrefixOf as bs

/-- Python's `needle in haystack` on byte strings. -/
def containsBytes (needle : List Nat) : List Nat → Bool
  | [] => needle.isEmpty
  | h :: tl => bytesPrefixOf needle (h :: tl) || containsBytes needle tl

def marker9800 : List Nat :=
  "<TITLE>Brother PT-9800PCN</TITLE>".toList.map Char.toNat

def markerP950 : List Nat :=
  "<title>Brother PT-P950NW</title>".toList.map Char.toNat

/-- The body inspection at the end of `_detect_printer_model_uncached`. -/
def classifyBody (html : List Nat) : Option String :=
  if containsBytes marker9800 html then some "9800PCN"
  else if containsBytes markerP950 html then some "P950NW"
  else none

/-- Model of `_detect_printer_model_uncached`: a 401 error still has its body read
and inspected; any other `URLError` is re-raised (`.error`). -/
def detect_printer_model_uncached (r : UrlResult) :
    Except Unit (Option String) :=
  match r with
  | .success body => .ok (classifyBody body)
  | .failure code body =>
    if code = some 401 then .ok (classifyBody body) else .error ()

/-- Model of `detect_printer_model(ip)`, with the process-wide `_PRINTER_BY_IP`
cache passed explicitly and the HTTP outcome as a parameter.  A caught
`URLError` yields the sentinel `'error'`; truthy results are cached. -/
def detect_printer_model (cache : List (String × String)) (ip : String)
    (r : UrlResult) : Option String × List (String × String) :=
  if (cache.lookup ip).getD "" ≠ "" then
    (some ((cache.lookup ip).getD ""), cache)
  else
    match detect_printer_model_uncached r with
    | .error _ => (some "error", cache)
    | .ok res =>
      match res with
      | some m => (some m, if m = "" then cache else (ip, m) :: cache)
      | none => (none, cache)

/-- C8: on a fresh probe, any `URLError` whose code is not 401 makes
`detect_printer_model` return the sentinel `'error'` (and leave the cache
alone) instead of propagating; a 401 error is not treated as a failure —
its body is read and inspected exactly like a successful response. -/
theorem detect_error_handling (cache : List (String × String)) (ip : String)
    (code : Option Nat) (body : List Nat)
    (hfresh : cache.lookup ip = none) :
    (code ≠ some 401 →
      detect_printer_model cache ip (.failure code body) =
        (some "error", cache)) ∧
    (detect_printer_model cache ip (.failure (some 401) body)).1 =
      classifyBody body ∧
    (detect_printer_model cache ip (.success body)).1 = classifyBody body := by
  refine ⟨?_, ?_, ?_⟩
  · intro hcode
    rw [detect_printer_model]
    rw [if_neg (by simp [hfresh])]
    rw [detect_printer_model_uncached]
    rw [if_neg hcode]
  · rw [detect_printer_model]
    rw [if_neg (by simp [hfresh])]
    rw [detect_printer_model_uncached]
    rw [if_pos rfl]
    cases classifyBody body <;> simp
  · rw [detect_printer_model]
    rw [if_neg (by simp [hfresh])]
    rw [detect_printer_model_uncached]
    cases classifyBody body <;> simp

/-- Witness for C8: fresh cache, connection error without an HTTP code. -/
theorem detect_error_handling_check :
    detect_printer_model [] "192.0.2.1" (.failure none []) =
      (some "error", []) :=
  (detect_error_handling [] "192.0.2.1" none [] rfl).1 (by simp)

end Rasterprynt
